import Mathlib

/-!
Verification of the borg hash-index specification: a persistent open-addressed
Robin Hood hash table (the engine under NSIndex and ChunkIndex), with
saturating reference counting, backshift deletion, compaction, marker-based
iteration and a little-endian on-disk codec.

The C engine itself is not part of the given sources (only its Python test
suite is), so the engine definitions below are modelled from the spec, as
their doc comments state.
-/

deriving instance DecidableEq for Except

set_option maxRecDepth 100000

namespace Borg

/-- Modelled from the spec: sentinel for an EMPTY bucket, stored in the first
32-bit value word. -/
def EMPTY : Nat := 0xFFFFFFFF

/-- Modelled from the spec: sentinel for a DELETED bucket (tombstone). -/
def DELETED : Nat := 0xFFFFFFFE

/-- Modelled from the spec: the usable maximum for the first value word
(bounds the segment number resp. the refcount). -/
def MAX_VALUE : Nat := 0xFFFFFFFD

/-- Modelled from the spec: minimal bucket count of a freshly allocated table. -/
def MIN_BUCKETS : Nat := 1031

/-- Modelled from the spec: keys are opaque 32-byte strings; we represent a key
by its little-endian value, a natural number below 2 to the 256. -/
abbrev Key := Nat

/-- Modelled from the spec: the hash reads the first 32 bits of the key,
little-endian; on the numeric representation this is reduction mod 2 to the 32. -/
def hash32 (k : Key) : Nat := k % 2 ^ 32

/-- Modelled from the spec: a bucket holds a key and a value, the value being a
list of 32-bit little-endian words (two words for NSIndex, three for ChunkIndex). -/
structure Bucket where
  key : Key
  value : List Nat
deriving DecidableEq, Repr

/-- Modelled from the spec: the first 32-bit word of the value encodes occupancy. -/
def Bucket.firstWord (b : Bucket) : Nat := b.value.headD EMPTY

/-- Modelled from the spec: a bucket is empty when its first value word is the
EMPTY sentinel. -/
def Bucket.isEmpty (b : Bucket) : Bool := b.firstWord == EMPTY

/-- Modelled from the spec: a bucket is a tombstone when its first value word is
the DELETED sentinel. -/
def Bucket.isDeleted (b : Bucket) : Bool := b.firstWord == DELETED

/-- Modelled from the spec: a bucket is occupied when its first value word is
neither sentinel. -/
def Bucket.isOccupied (b : Bucket) : Bool := !b.isEmpty && !b.isDeleted

/-- Modelled from the spec: the table owns a contiguous bucket array; it also
records the number of occupied buckets and the value width in 32-bit words. -/
structure HashIndex where
  valueWords : Nat
  buckets : List Bucket
  numEntries : Nat
deriving DecidableEq, Repr

/-- Modelled from the spec: current length of the bucket array. -/
def HashIndex.numBuckets (t : HashIndex) : Nat := t.buckets.length

/-- Modelled from the spec: probe distance of position pos from ideal position
ideal, modulo the bucket count. -/
def probeDistance (numBuckets ideal pos : Nat) : Nat :=
  (pos + numBuckets - ideal) % numBuckets

/-- Modelled from the spec: probe distance of the entry stored in bucket b when
it sits at position pos of an array of numBuckets buckets. -/
def bucketDistance (numBuckets : Nat) (b : Bucket) (pos : Nat) : Nat :=
  probeDistance numBuckets (hash32 b.key % numBuckets) pos

/-- Modelled from the spec: linear probing for lookup, wrapping modulo the
bucket count; an EMPTY bucket stops the search, a DELETED bucket is skipped.
The fuel argument bounds the scan to one full cycle of the array. -/
def lookupFrom (buckets : List Bucket) (k : Key) : Nat → Nat → Option Nat
  | _, 0 => none
  | p, fuel + 1 =>
    match buckets[p]? with
    | none => none
    | some b =>
      if b.isEmpty then none
      else if b.isDeleted then lookupFrom buckets k ((p + 1) % buckets.length) fuel
      else if b.key == k then some p
      else lookupFrom buckets k ((p + 1) % buckets.length) fuel

/-- Modelled from the spec: lookup returns the bucket position of the key, or
none when the key is absent. -/
def lookup (t : HashIndex) (k : Key) : Option Nat :=
  if t.buckets.length = 0 then none
  else lookupFrom t.buckets k (hash32 k % t.buckets.length) t.buckets.length

/-- Modelled from the spec: Robin Hood insertion probe.  The candidate entry is
placed into the first EMPTY or DELETED bucket; a bucket holding the same key is
overwritten; an occupied bucket whose probe distance is smaller than the
candidate distance is swapped with the candidate, which then continues probing
as the displaced entry. -/
def rhInsertFrom (buckets : List Bucket) (k : Key) (v : List Nat) :
    Nat → Nat → Nat → List Bucket
  | _, _, 0 => buckets
  | p, d, fuel + 1 =>
    match buckets[p]? with
    | none => buckets
    | some b =>
      if b.isEmpty || b.isDeleted then buckets.set p ⟨k, v⟩
      else if b.key == k then buckets.set p ⟨k, v⟩
      else if bucketDistance buckets.length b p < d then
        rhInsertFrom (buckets.set p ⟨k, v⟩) b.key b.value
          ((p + 1) % buckets.length) (bucketDistance buckets.length b p + 1) fuel
      else
        rhInsertFrom buckets k v ((p + 1) % buckets.length) (d + 1) fuel

/-- Modelled from the spec: insert a fresh entry (the caller has established the
key is absent); the entry count increases by one. -/
def rhInsert (t : HashIndex) (k : Key) (v : List Nat) : HashIndex :=
  { t with
    buckets := rhInsertFrom t.buckets k v (hash32 k % t.buckets.length) 0 t.buckets.length
    numEntries := t.numEntries + 1 }

/-- Modelled from the spec: a freshly allocated bucket is empty, zero-filled. -/
def emptyBucket (w : Nat) : Bucket := ⟨0, EMPTY :: List.replicate (w - 1) 0⟩

/-- Modelled from the spec: a freshly allocated bucket array. -/
def emptyBuckets (w n : Nat) : List Bucket := List.replicate n (emptyBucket w)

/-- Modelled from the spec: resize reinserts every occupied entry, in bucket
order, into a fresh array of the requested size; tombstones are dropped. -/
def resize (t : HashIndex) (newB : Nat) : HashIndex :=
  (t.buckets.filter (·.isOccupied)).foldl (fun acc b => rhInsert acc b.key b.value)
    { valueWords := t.valueWords, buckets := emptyBuckets t.valueWords newB, numEntries := 0 }

/-- Modelled from the spec: the monotone size schedule, prime-adjacent and
roughly doubling, starting at MIN_BUCKETS. -/
def hashSizes : List Nat := [1031, 2053, 4099, 8209, 16411, 32771, 65537]

/-- Modelled from the spec: the smallest schedule size of at least the
requested capacity. -/
def pickSize (need : Nat) : Nat :=
  (hashSizes.find? fun s => decide (need ≤ s)).getD 65537

/-- Modelled from the spec: MAX_LOAD_FACTOR is 3/4; an insertion that would
push the entry count over it grows the table first, to the smallest schedule
size of at least the ceiling of the new entry count divided by the load factor. -/
def growIfNeeded (t : HashIndex) : HashIndex :=
  if 3 * t.buckets.length < 4 * (t.numEntries + 1) then
    resize t (pickSize ((4 * (t.numEntries + 1) + 2) / 3))
  else t

/-- Modelled from the spec: the error kinds the engine distinguishes. -/
inductive HIError
  | notFound
  | rangeError
  | invariantViolation
  | formatError
deriving DecidableEq, Repr

/-- Modelled from the spec: overwrite the value stored at a bucket position,
keeping the key. -/
def setValueAt (t : HashIndex) (pos : Nat) (v : List Nat) : HashIndex :=
  { t with
    buckets :=
      match t.buckets[pos]? with
      | some b => t.buckets.set pos ⟨b.key, v⟩
      | none => t.buckets }

/-- Modelled from the spec: direct assignment; rejects a first value word above
MAX_VALUE, overwrites in place when the key is present, and otherwise grows if
needed and performs a Robin Hood insertion. -/
def setItem (t : HashIndex) (k : Key) (v : List Nat) : Except HIError HashIndex :=
  if MAX_VALUE < v.headD EMPTY then .error .rangeError
  else
    match lookup t k with
    | some pos => .ok (setValueAt t pos v)
    | none => .ok (rhInsert (growIfNeeded t) k v)

/-- Modelled from the spec: backshift sweep after a deletion at position prev.
Scanning forward with wraparound, an occupied entry with positive probe
distance moves back one slot; an EMPTY bucket, a tombstone, or an entry at its
ideal home stops the sweep, and the vacated slot becomes EMPTY. -/
def backshiftFrom (w : Nat) (buckets : List Bucket) : Nat → Nat → Nat → List Bucket
  | prev, _, 0 => buckets.set prev (emptyBucket w)
  | prev, p, fuel + 1 =>
    match buckets[p]? with
    | none => buckets.set prev (emptyBucket w)
    | some b =>
      if b.isOccupied && bucketDistance buckets.length b p != 0 then
        backshiftFrom w (buckets.set prev b) p ((p + 1) % buckets.length) fuel
      else
        buckets.set prev (emptyBucket w)

/-- Modelled from the spec: MIN_LOAD_FACTOR is 1/4; when deletion leaves the
entry count below it and the table is larger than MIN_BUCKETS, the table
shrinks to the smallest schedule size still respecting MAX_LOAD_FACTOR. -/
def shrinkIfNeeded (t : HashIndex) : HashIndex :=
  if MIN_BUCKETS < t.buckets.length && 4 * t.numEntries < t.buckets.length then
    if pickSize ((4 * t.numEntries + 2) / 3) < t.buckets.length then
      resize t (pickSize ((4 * t.numEntries + 2) / 3))
    else t
  else t

/-- Modelled from the spec: deletion locates the key, backshifts the chain
behind it, decrements the entry count and may shrink the table. -/
def delItem (t : HashIndex) (k : Key) : Except HIError HashIndex :=
  match lookup t k with
  | none => .error .notFound
  | some pos =>
    .ok (shrinkIfNeeded
      { t with
        buckets := backshiftFrom t.valueWords t.buckets pos
          ((pos + 1) % t.buckets.length) t.buckets.length
        numEntries := t.numEntries - 1 })

/-- Modelled from the spec: subscript lookup of the stored value; raises
NotFound on an absent key. -/
def getItem (t : HashIndex) (k : Key) : Except HIError (List Nat) :=
  match lookup t k with
  | none => .error .notFound
  | some pos =>
    match t.buckets[pos]? with
    | none => .error .notFound
    | some b => .ok b.value

/-- Modelled from the spec: the total, non-raising lookup of the public
interface; returns none (the default) on an absent key. -/
def HashIndex.get (t : HashIndex) (k : Key) : Option (List Nat) :=
  match lookup t k with
  | none => none
  | some pos =>
    match t.buckets[pos]? with
    | none => none
    | some b => some b.value

/-- Modelled from the spec: key membership. -/
def contains (t : HashIndex) (k : Key) : Bool := (lookup t k).isSome

/-- Modelled from the spec: saturating clamp of the first value word. -/
def saturate (x : Nat) : Nat := if MAX_VALUE ≤ x then MAX_VALUE else x

/-- Modelled from the spec: incref requires the key present and sets the
refcount to the saturated successor, returning the new tuple with the table. -/
def incref (t : HashIndex) (k : Key) : Except HIError (List Nat × HashIndex) :=
  match lookup t k with
  | none => .error .notFound
  | some pos =>
    match t.buckets[pos]? with
    | none => .error .notFound
    | some b =>
      let v := saturate (b.value.headD 0 + 1) :: b.value.tail
      .ok (v, { t with buckets := t.buckets.set pos ⟨b.key, v⟩ })

/-- Modelled from the spec: decref requires the key present and a positive
refcount; a refcount at MAX_VALUE is sticky, otherwise it decreases by one.
Returns the new tuple with the table. -/
def decref (t : HashIndex) (k : Key) : Except HIError (List Nat × HashIndex) :=
  match lookup t k with
  | none => .error .notFound
  | some pos =>
    match t.buckets[pos]? with
    | none => .error .notFound
    | some b =>
      let rc := b.value.headD 0
      if rc = 0 then .error .invariantViolation
      else
        let v := (if rc = MAX_VALUE then MAX_VALUE else rc - 1) :: b.value.tail
        .ok (v, { t with buckets := t.buckets.set pos ⟨b.key, v⟩ })

/-- Modelled from the spec: add inserts the tuple when the key is absent and
otherwise saturates the refcount sum, overwriting size and csize; a negative
delta is a range error. -/
def add (t : HashIndex) (k : Key) (delta : Int) (s c : Nat) : Except HIError HashIndex :=
  if delta < 0 then .error .rangeError
  else
    match lookup t k with
    | none => setItem t k [delta.toNat, s, c]
    | some pos =>
      match t.buckets[pos]? with
      | none => .error .notFound
      | some b => .ok (setValueAt t pos [saturate (b.value.headD 0 + delta.toNat), s, c])

/-- Modelled from the spec: merging a single entry of the other table; a key
present on both sides combines refcounts saturating while the receiver keeps
its own size fields, an absent key is inserted as a copy. -/
def mergeEntry (t : HashIndex) (b : Bucket) : HashIndex :=
  match lookup t b.key with
  | some pos =>
    match t.buckets[pos]? with
    | some b0 =>
      setValueAt t pos (saturate (b0.value.headD 0 + b.value.headD 0) :: b0.value.tail)
    | none => t
  | none => rhInsert (growIfNeeded t) b.key b.value

/-- Modelled from the spec: merge folds every occupied entry of the other
table, in bucket order, into the receiver. -/
def merge (t other : HashIndex) : HashIndex :=
  (other.buckets.filter (·.isOccupied)).foldl mergeEntry t

/-- Modelled from the spec: compaction keeps exactly the occupied buckets, in
ascending position order of the previous layout, and truncates the array to
the entry count. -/
def compact (t : HashIndex) : HashIndex :=
  let occ := t.buckets.filter (·.isOccupied)
  { valueWords := t.valueWords, buckets := occ, numEntries := occ.length }

/-- Modelled from the spec: full iteration yields the occupied entries in
ascending bucket-position order. -/
def iterItems (t : HashIndex) : List (Key × List Nat) :=
  (t.buckets.filter (·.isOccupied)).map fun b => (b.key, b.value)

/-- Modelled from the spec: iteration with a marker begins after the bucket
containing the marker, excluding the marker itself; an absent marker is a
NotFound error. -/
def iterItemsMarker (t : HashIndex) (marker : Key) :
    Except HIError (List (Key × List Nat)) :=
  match lookup t marker with
  | none => .error .notFound
  | some pos =>
    .ok (((t.buckets.drop (pos + 1)).filter (·.isOccupied)).map fun b => (b.key, b.value))

/-- Modelled from the spec: one step of the iteration cursor; scans forward
from bucket index i to the next occupied bucket, returning the entry and the
next cursor position, or none when the sequence is exhausted. -/
def scanOccupied : List Bucket → Nat → Option ((Key × List Nat) × Nat)
  | [], _ => none
  | b :: rest, i =>
    if b.isOccupied then some ((b.key, b.value), i + 1) else scanOccupied rest (i + 1)

/-- Modelled from the spec: the cursor request of the iterator. -/
def iterNext (t : HashIndex) (i : Nat) : Option ((Key × List Nat) × Nat) :=
  scanOccupied (t.buckets.drop i) i

/-- Modelled from the spec: repeatedly consuming the cursor until exhaustion. -/
def drain (t : HashIndex) : Nat → Nat → List (Key × List Nat)
  | 0, _ => []
  | fuel + 1, i =>
    match iterNext t i with
    | none => []
    | some (kv, j) => kv :: drain t fuel j

/-- Modelled from the spec: a fresh empty table of the given value width and
bucket count. -/
def mkIndex (w n : Nat) : HashIndex :=
  { valueWords := w, buckets := emptyBuckets w n, numEntries := 0 }

/-- A reference-count operation, incref or decref. -/
inductive RefOp
  | inc
  | dec
deriving DecidableEq, Repr

/-- Apply one reference-count operation to the table. -/
def applyRefOp (k : Key) (t : HashIndex) : RefOp → Except HIError (List Nat × HashIndex)
  | .inc => incref t k
  | .dec => decref t k

/-- Run a sequence of reference-count operations, collecting the returned
tuples. -/
def runRefOps (k : Key) (t : HashIndex) :
    List RefOp → Except HIError (List (List Nat) × HashIndex)
  | [] => .ok ([], t)
  | op :: ops =>
    match applyRefOp k t op with
    | .error e => .error e
    | .ok (v, t1) =>
      match runRefOps k t1 ops with
      | .error e => .error e
      | .ok (vs, t2) => .ok (v :: vs, t2)

/-- A three-bucket ChunkIndex holding the single key 3 at its ideal position 0. -/
def singleChunk (a s c : Nat) : HashIndex :=
  { valueWords := 3
    buckets := [⟨3, [a, s, c]⟩, emptyBucket 3, emptyBucket 3]
    numEntries := 1 }

/-- Modelled from the spec: little-endian byte encoding of a number in a fixed
width of bytes. -/
def leBytes : Nat → Nat → List Nat
  | 0, _ => []
  | w + 1, n => n % 256 :: leBytes w (n / 256)

/-- Modelled from the spec: decode a little-endian byte list. -/
def fromLEBytes : List Nat → Nat
  | [] => 0
  | b :: rest => b + 256 * fromLEBytes rest

/-- Modelled from the spec: the magic header bytes, the ASCII of BORG_IDX. -/
def MAGIC : List Nat := [66, 79, 82, 71, 95, 73, 68, 88]

/-- Modelled from the spec: one bucket on disk: 32 key bytes followed by the
value words, each in 4 little-endian bytes. -/
def bucketBytes (b : Bucket) : List Nat :=
  leBytes 32 b.key ++ b.value.flatMap (leBytes 4)

/-- Modelled from the spec: the on-disk image: magic, entry count, bucket
count, key size, value size, then the bucket array. -/
def writeBytes (t : HashIndex) : List Nat :=
  MAGIC ++ leBytes 4 t.numEntries ++ leBytes 4 t.buckets.length
    ++ [32, 4 * t.valueWords] ++ t.buckets.flatMap bucketBytes

/-- Modelled from the spec: total on-disk size of the table. -/
def sizeOnDisk (t : HashIndex) : Nat := 18 + t.buckets.length * (32 + 4 * t.valueWords)

/-- Modelled from the spec: parse a bucket array of the given width and count. -/
def readBuckets (w : Nat) : Nat → List Nat → Option (List Bucket)
  | 0, [] => some []
  | 0, _ :: _ => none
  | n + 1, bytes =>
    if bytes.length < 32 + 4 * w then none
    else
      let key := fromLEBytes (bytes.take 32)
      let rest := bytes.drop 32
      let v := (List.range w).map fun i => fromLEBytes ((rest.drop (4 * i)).take 4)
      (readBuckets w n (rest.drop (4 * w))).map fun bs => ⟨key, v⟩ :: bs

/-- Modelled from the spec: read a table from a byte stream, rejecting a bad
magic, a key size other than 32, a value size other than 8 or 12, and a short
payload; the bucket count is taken verbatim from the header. -/
def readIndex (bytes : List Nat) : Except HIError HashIndex :=
  if bytes.take 8 ≠ MAGIC then .error .formatError
  else
    let ne := fromLEBytes ((bytes.drop 8).take 4)
    let nb := fromLEBytes ((bytes.drop 12).take 4)
    let ks := (bytes.drop 16).headD 0
    let vs := (bytes.drop 17).headD 0
    if ks ≠ 32 then .error .formatError
    else if vs ≠ 8 ∧ vs ≠ 12 then .error .formatError
    else
      match readBuckets (vs / 4) nb (bytes.drop 18) with
      | none => .error .formatError
      | some bs => .ok { valueWords := vs / 4, buckets := bs, numEntries := ne }

/-- The C4 scenario: a seven-bucket ChunkIndex after inserting keys with ideal
positions 6, 6 and 0 (keys 6, 13 and 7). -/
def wrapTable0 : Except HIError HashIndex :=
  (setItem (mkIndex 3 7) 6 [0, 0, 99]).bind fun t =>
    (setItem t 13 [1, 0, 99]).bind fun t => setItem t 7 [2, 0, 99]

/-- The C4 scenario after deleting the first-inserted key. -/
def wrapTable1 : Except HIError HashIndex := wrapTable0.bind fun t => delItem t 6

/-- The C5 input stream: a six-bucket ChunkIndex image whose buckets are
deleted, occupied, empty, occupied, occupied, empty. -/
def compactInput : List Nat :=
  MAGIC ++ leBytes 4 3 ++ leBytes 4 6 ++ [32, 12]
    ++ bucketBytes ⟨101, [DELETED, 0, 0]⟩
    ++ bucketBytes ⟨102, [1, 2, 3]⟩
    ++ bucketBytes ⟨103, [EMPTY, 0, 0]⟩
    ++ bucketBytes ⟨104, [5, 6, 7]⟩
    ++ bucketBytes ⟨105, [8, 9, 10]⟩
    ++ bucketBytes ⟨106, [EMPTY, 0, 0]⟩

/-- The C5 expected output: a three-bucket image holding exactly the three
occupied entries in their original relative order. -/
def compactExpected : List Nat :=
  MAGIC ++ leBytes 4 3 ++ leBytes 4 3 ++ [32, 12]
    ++ bucketBytes ⟨102, [1, 2, 3]⟩
    ++ bucketBytes ⟨104, [5, 6, 7]⟩
    ++ bucketBytes ⟨105, [8, 9, 10]⟩

/-- The C5 empty-table input: six buckets, all deleted or empty. -/
def emptyCompactInput : List Nat :=
  MAGIC ++ leBytes 4 0 ++ leBytes 4 6 ++ [32, 12]
    ++ bucketBytes ⟨101, [DELETED, 0, 0]⟩
    ++ bucketBytes ⟨102, [EMPTY, 0, 0]⟩
    ++ bucketBytes ⟨103, [DELETED, 0, 0]⟩
    ++ bucketBytes ⟨104, [EMPTY, 0, 0]⟩
    ++ bucketBytes ⟨105, [EMPTY, 0, 0]⟩
    ++ bucketBytes ⟨106, [DELETED, 0, 0]⟩

/-- The C6 scenario: an NSIndex with 100 distinct keys 1 to 100 at ideal
positions 1 to 100 of the 1031-bucket array. -/
def iterTable : Except HIError HashIndex :=
  (List.range 100).foldl (fun acc i => acc.bind fun t => setItem t (i + 1) [i, i])
    (.ok (mkIndex 2 MIN_BUCKETS))

/-- The iteration sequence the C6 scenario yields. -/
def iterSeq : List (Key × List Nat) := (List.range 100).map fun i => (i + 1, [i, i])

/-- A bucket of the C9 scenario tables: position p holds the key p + off with
value words [key - 1, key - 1] when p lies in [lo, hi], and is empty otherwise. -/
def rampBucket (off lo hi p : Nat) : Bucket :=
  if lo ≤ p ∧ p ≤ hi then ⟨p + off, [p + off - 1, p + off - 1]⟩ else emptyBucket 2

/-- A C9 scenario table: B buckets, of which positions lo..hi are occupied by
the keys lo + off .. hi + off sitting at their ideal positions. -/
def rampTable (off lo hi B : Nat) : HashIndex :=
  { valueWords := 2
    buckets := (List.range B).map (rampBucket off lo hi)
    numEntries := hi + 1 - lo }

/-- Modelled from the spec (C9 scenario): insert the m distinct keys
a, a + 1, ..., a + m - 1, each with value [key - 1, key - 1]. -/
def insertKeys (a m : Nat) (t : Except HIError HashIndex) : Except HIError HashIndex :=
  (List.range' a m).foldl (fun acc k => acc.bind fun u => setItem u k [k - 1, k - 1]) t

/-- Modelled from the spec (C9 scenario): delete the keys a, a + 1, ...,
a + m - 1 in order. -/
def deleteKeys (a m : Nat) (t : Except HIError HashIndex) : Except HIError HashIndex :=
  (List.range' a m).foldl (fun acc k => acc.bind fun u => delItem u k) t

/-- The C9 scenario after writing a fresh NSIndex and inserting 2000 distinct
keys. -/
def scenarioInsert : Except HIError HashIndex :=
  insertKeys 1 2000 (.ok (mkIndex 2 MIN_BUCKETS))

/-- The C9 scenario after deleting all 2000 keys again. -/
def scenarioFinal : Except HIError HashIndex := deleteKeys 1 2000 scenarioInsert

/-! ## Helper lemmas -/

theorem set_get_same {α : Type} {l : List α} {i : Nat} {b : α} (h : l[i]? = some b) :
    l.set i b = l := by
  apply List.ext_getElem?
  intro n
  rcases eq_or_ne i n with rfl | hne
  · rw [List.getElem?_set_self, h]
    exact (List.getElem?_eq_some.mp h).1
  · rw [List.getElem?_set_ne hne]

theorem getElem_pos_lt {α : Type} {l : List α} {i : Nat} {b : α} (h : l[i]? = some b) :
    i < l.length :=
  (List.getElem?_eq_some.mp h).1

theorem isEmpty_mk_false {k : Key} {v : List Nat} (h : v.headD EMPTY ≠ EMPTY) :
    Bucket.isEmpty ⟨k, v⟩ = false := by
  simpa [Bucket.isEmpty, Bucket.firstWord, List.headD] using h

theorem isDeleted_mk_false {k : Key} {v : List Nat} (h : v.headD EMPTY ≠ DELETED) :
    Bucket.isDeleted ⟨k, v⟩ = false := by
  simpa [Bucket.isDeleted, Bucket.firstWord, List.headD] using h

/-- Lookup only inspects keys and occupancy, so overwriting the value at one
position by another occupied value with the same key does not change it. -/
theorem lookupFrom_set_occ {bs : List Bucket} {pos : Nat} {k0 : Key} {v v' : List Nat}
    (hb : bs[pos]? = some ⟨k0, v⟩)
    (he : v.headD EMPTY ≠ EMPTY) (hd : v.headD EMPTY ≠ DELETED)
    (he' : v'.headD EMPTY ≠ EMPTY) (hd' : v'.headD EMPTY ≠ DELETED) :
    ∀ fuel k p, lookupFrom (bs.set pos ⟨k0, v'⟩) k p fuel = lookupFrom bs k p fuel := by
  intro fuel
  induction fuel with
  | zero => intro k p; rfl
  | succ fuel ih =>
    intro k p
    rcases eq_or_ne pos p with rfl | hne
    · simp only [lookupFrom, List.length_set,
        List.getElem?_set_self (getElem_pos_lt hb), hb,
        isEmpty_mk_false he, isEmpty_mk_false he', isDeleted_mk_false hd,
        isDeleted_mk_false hd', Bool.false_eq_true, if_false]
      by_cases hk : (k0 == k) = true
      · rw [if_pos hk, if_pos hk]
      · rw [if_neg hk, if_neg hk]
        exact ih k _
    · rcases hgp : bs[p]? with _ | b
      · simp only [lookupFrom, List.length_set, List.getElem?_set_ne hne, hgp]
      · simp only [lookupFrom, List.length_set, List.getElem?_set_ne hne, hgp]
        by_cases hbe : b.isEmpty = true
        · rw [if_pos hbe, if_pos hbe]
        · rw [if_neg hbe, if_neg hbe]
          by_cases hbd : b.isDeleted = true
          · rw [if_pos hbd, if_pos hbd]
            exact ih k _
          · rw [if_neg hbd, if_neg hbd]
            by_cases hk : (b.key == k) = true
            · rw [if_pos hk, if_pos hk]
            · rw [if_neg hk, if_neg hk]
              exact ih k _

theorem lookup_set_occ {t : HashIndex} {pos : Nat} {k0 : Key} {v v' : List Nat}
    (hb : t.buckets[pos]? = some ⟨k0, v⟩)
    (he : v.headD EMPTY ≠ EMPTY) (hd : v.headD EMPTY ≠ DELETED)
    (he' : v'.headD EMPTY ≠ EMPTY) (hd' : v'.headD EMPTY ≠ DELETED) (k : Key) :
    lookup { t with buckets := t.buckets.set pos ⟨k0, v'⟩ } k = lookup t k := by
  unfold lookup
  simp only [List.length_set]
  split
  · rfl
  · exact lookupFrom_set_occ hb he hd he' hd' _ k _

/-! ## C1: sticky refcount saturation -/

theorem incref_saturated {t : HashIndex} {k : Key} {pos : Nat} {s c : Nat}
    (hl : lookup t k = some pos)
    (hb : t.buckets[pos]? = some ⟨k, [MAX_VALUE, s, c]⟩) :
    incref t k = .ok ([MAX_VALUE, s, c], t) := by
  have hsat : saturate (MAX_VALUE + 1) = MAX_VALUE := by simp [saturate]
  simp only [incref, hl, hb, List.headD_cons, List.tail_cons, hsat]
  rw [set_get_same hb]

theorem decref_saturated {t : HashIndex} {k : Key} {pos : Nat} {s c : Nat}
    (hl : lookup t k = some pos)
    (hb : t.buckets[pos]? = some ⟨k, [MAX_VALUE, s, c]⟩) :
    decref t k = .ok ([MAX_VALUE, s, c], t) := by
  simp only [decref, hl, hb, List.headD_cons, List.tail_cons]
  rw [if_neg (by norm_num [MAX_VALUE])]
  simp only [if_true]
  rw [set_get_same hb]

theorem runRefOps_saturated {t : HashIndex} {k : Key} {pos : Nat} {s c : Nat}
    (hl : lookup t k = some pos)
    (hb : t.buckets[pos]? = some ⟨k, [MAX_VALUE, s, c]⟩) :
    ∀ ops : List RefOp,
      runRefOps k t ops = .ok (ops.map (fun _ => [MAX_VALUE, s, c]), t) := by
  intro ops
  induction ops with
  | nil => rfl
  | cons op ops ih =>
    have hstep : applyRefOp k t op = .ok ([MAX_VALUE, s, c], t) := by
      cases op
      · exact incref_saturated hl hb
      · exact decref_saturated hl hb
    simp only [runRefOps, hstep, ih, List.map_cons]

/-- C1.  Sticky refcount saturation: on an entry stored with refcount
MAX_VALUE - 1, one incref brings the refcount to MAX_VALUE and returns it, and
afterwards every sequence of further increfs and decrefs, of any length and in
any order, leaves the table unchanged with the refcount at MAX_VALUE, each
operation returning MAX_VALUE as the new refcount. -/
theorem chunkindex_refcount_saturation_sticky (t : HashIndex) (k : Key) (pos s c : Nat)
    (hl : lookup t k = some pos)
    (hb : t.buckets[pos]? = some ⟨k, [MAX_VALUE - 1, s, c]⟩) :
    ∃ t1 : HashIndex,
      incref t k = .ok ([MAX_VALUE, s, c], t1) ∧
      ∀ ops : List RefOp,
        runRefOps k t1 ops = .ok (ops.map (fun _ => [MAX_VALUE, s, c]), t1) := by
  refine ⟨{ t with buckets := t.buckets.set pos ⟨k, [MAX_VALUE, s, c]⟩ }, ?_, ?_⟩
  · have hsat : saturate (MAX_VALUE - 1 + 1) = MAX_VALUE := by norm_num [saturate, MAX_VALUE]
    simp only [incref, hl, hb, List.headD_cons, List.tail_cons, hsat]
  · have he1 : ([MAX_VALUE - 1, s, c] : List Nat).headD EMPTY ≠ EMPTY := by
      simp only [List.headD_cons]
      norm_num [MAX_VALUE, EMPTY]
    have hd1 : ([MAX_VALUE - 1, s, c] : List Nat).headD EMPTY ≠ DELETED := by
      simp only [List.headD_cons]
      norm_num [MAX_VALUE, DELETED]
    have he2 : ([MAX_VALUE, s, c] : List Nat).headD EMPTY ≠ EMPTY := by
      simp only [List.headD_cons]
      norm_num [MAX_VALUE, EMPTY]
    have hd2 : ([MAX_VALUE, s, c] : List Nat).headD EMPTY ≠ DELETED := by
      simp only [List.headD_cons]
      norm_num [MAX_VALUE, DELETED]
    have hl1 : lookup { t with buckets := t.buckets.set pos ⟨k, [MAX_VALUE, s, c]⟩ } k
        = some pos := by
      rw [lookup_set_occ hb he1 hd1 he2 hd2 k, hl]
    have hb1 : ({ t with buckets := t.buckets.set pos ⟨k, [MAX_VALUE, s, c]⟩ }
        : HashIndex).buckets[pos]? = some ⟨k, [MAX_VALUE, s, c]⟩ := by
      simpa using List.getElem?_set_self (a := (⟨k, [MAX_VALUE, s, c]⟩ : Bucket))
        (getElem_pos_lt hb)
    exact runRefOps_saturated hl1 hb1

/-- Witness for C1 at a concrete table: a three-bucket ChunkIndex holding one
entry with refcount MAX_VALUE - 1. -/
theorem chunkindex_refcount_saturation_sticky_witness :
    ∃ t1 : HashIndex,
      incref { valueWords := 3,
               buckets := [⟨3, [MAX_VALUE - 1, 1, 2]⟩, emptyBucket 3, emptyBucket 3],
               numEntries := 1 } 3 = .ok ([MAX_VALUE, 1, 2], t1) ∧
      ∀ ops : List RefOp,
        runRefOps 3 t1 ops = .ok (ops.map (fun _ => [MAX_VALUE, 1, 2]), t1) :=
  chunkindex_refcount_saturation_sticky _ 3 0 1 2 (by decide) (by decide)

/-! ## C2, C3: merge refcount saturation, commutativity, receiver sizes -/

theorem ne_EMPTY_of_le {a : Nat} (ha : a ≤ MAX_VALUE) : a ≠ EMPTY := by
  norm_num [MAX_VALUE, EMPTY] at *
  omega

theorem ne_DELETED_of_le {a : Nat} (ha : a ≤ MAX_VALUE) : a ≠ DELETED := by
  norm_num [MAX_VALUE, DELETED] at *
  omega

theorem saturate_le (x : Nat) : saturate x ≤ MAX_VALUE := by
  unfold saturate
  split <;> omega

theorem isOccupied_cons {k a : Nat} {l : List Nat} (ha : a ≤ MAX_VALUE) :
    Bucket.isOccupied ⟨k, a :: l⟩ = true := by
  have he : (a :: l).headD EMPTY ≠ EMPTY := by simpa using ne_EMPTY_of_le ha
  have hd : (a :: l).headD EMPTY ≠ DELETED := by simpa using ne_DELETED_of_le ha
  simp [Bucket.isOccupied, isEmpty_mk_false he, isDeleted_mk_false hd]

theorem isOccupied_emptyBucket (w : Nat) : Bucket.isOccupied (emptyBucket w) = false := by
  simp [Bucket.isOccupied, emptyBucket, Bucket.isEmpty, Bucket.firstWord]

theorem lookupFrom_hit {bs : List Bucket} {k : Key} {p : Nat} {v : List Nat} (fuel : Nat)
    (hfuel : fuel ≠ 0) (hb : bs[p]? = some ⟨k, v⟩)
    (he : v.headD EMPTY ≠ EMPTY) (hd : v.headD EMPTY ≠ DELETED) :
    lookupFrom bs k p fuel = some p := by
  cases fuel with
  | zero => exact absurd rfl hfuel
  | succ n =>
    simp only [lookupFrom, hb, isEmpty_mk_false he, isDeleted_mk_false hd, Bool.false_eq_true,
      if_false, beq_self_eq_true, if_true]

theorem lookup_singleChunk {a : Nat} (ha : a ≤ MAX_VALUE) (s c : Nat) :
    lookup (singleChunk a s c) 3 = some 0 := by
  have he : ([a, s, c] : List Nat).headD EMPTY ≠ EMPTY := by
    simpa using ne_EMPTY_of_le ha
  have hd : ([a, s, c] : List Nat).headD EMPTY ≠ DELETED := by
    simpa using ne_DELETED_of_le ha
  have hstep : lookupFrom (singleChunk a s c).buckets 3 0 3 = some 0 :=
    lookupFrom_hit 3 (by omega) rfl he hd
  unfold lookup
  rw [show (singleChunk a s c).buckets.length = 3 from rfl]
  rw [if_neg (by omega)]
  rw [show hash32 3 % 3 = 0 from rfl]
  exact hstep

theorem get_singleChunk {x : Nat} (hx : x ≤ MAX_VALUE) (s c : Nat) :
    HashIndex.get (singleChunk x s c) 3 = some [x, s, c] := by
  unfold HashIndex.get
  rw [lookup_singleChunk hx]
  rfl

theorem filter_singleChunk {b : Nat} (hb : b ≤ MAX_VALUE) (s c : Nat) :
    (singleChunk b s c).buckets.filter (·.isOccupied) = [⟨3, [b, s, c]⟩] := by
  simp [singleChunk, List.filter, isOccupied_cons hb, isOccupied_emptyBucket]

theorem merge_singleChunk {a b : Nat} (ha : a ≤ MAX_VALUE) (hb : b ≤ MAX_VALUE)
    (s1 c1 s2 c2 : Nat) :
    merge (singleChunk a s1 c1) (singleChunk b s2 c2)
      = singleChunk (saturate (a + b)) s1 c1 := by
  unfold merge
  rw [filter_singleChunk hb]
  simp only [List.foldl_cons, List.foldl_nil, mergeEntry]
  rw [lookup_singleChunk ha]
  simp [setValueAt, singleChunk, List.headD_cons]

/-- C2.  Merge refcount saturation and commutativity: merging single-entry
ChunkIndexes holding the same key with refcounts a and b yields the refcount
saturate (a + b), identically in either merge order; in particular merging
MAX_VALUE / 2 with MAX_VALUE / 2 yields MAX_VALUE - 1, merging
MAX_VALUE / 2 + 1 with MAX_VALUE / 2 yields MAX_VALUE, and merging
3000000000 with 2000000000 yields MAX_VALUE. -/
theorem chunkindex_merge_saturation_commutes (a b : Nat)
    (ha : a ≤ MAX_VALUE) (hb : b ≤ MAX_VALUE) :
    HashIndex.get (merge (singleChunk a 1 2) (singleChunk b 1 2)) 3
        = some [saturate (a + b), 1, 2] ∧
      merge (singleChunk a 1 2) (singleChunk b 1 2)
        = merge (singleChunk b 1 2) (singleChunk a 1 2) ∧
      HashIndex.get (merge (singleChunk (MAX_VALUE / 2) 1 2)
          (singleChunk (MAX_VALUE / 2) 1 2)) 3 = some [MAX_VALUE - 1, 1, 2] ∧
      HashIndex.get (merge (singleChunk (MAX_VALUE / 2 + 1) 1 2)
          (singleChunk (MAX_VALUE / 2) 1 2)) 3 = some [MAX_VALUE, 1, 2] ∧
      HashIndex.get (merge (singleChunk 3000000000 1 2)
          (singleChunk 2000000000 1 2)) 3 = some [MAX_VALUE, 1, 2] := by
  refine ⟨?_, ?_, ?_, ?_, ?_⟩
  · rw [merge_singleChunk ha hb, get_singleChunk (saturate_le _)]
  · rw [merge_singleChunk ha hb, merge_singleChunk hb ha, Nat.add_comm]
  · rw [merge_singleChunk (by norm_num [MAX_VALUE]) (by norm_num [MAX_VALUE]),
      get_singleChunk (saturate_le _)]
    norm_num [saturate, MAX_VALUE]
  · rw [merge_singleChunk (by norm_num [MAX_VALUE]) (by norm_num [MAX_VALUE]),
      get_singleChunk (saturate_le _)]
    norm_num [saturate, MAX_VALUE]
  · rw [merge_singleChunk (by norm_num [MAX_VALUE]) (by norm_num [MAX_VALUE]),
      get_singleChunk (saturate_le _)]
    norm_num [saturate, MAX_VALUE]

/-- Witness for C2 at the concrete refcounts 5 and 7. -/
theorem chunkindex_merge_saturation_commutes_witness :
    HashIndex.get (merge (singleChunk 5 1 2) (singleChunk 7 1 2)) 3
      = some [saturate (5 + 7), 1, 2] :=
  (chunkindex_merge_saturation_commutes 5 7 (by norm_num [MAX_VALUE])
    (by norm_num [MAX_VALUE])).1

/-- C3.  When merge combines a key present in both tables, only the refcount is
combined, by saturating addition; the size and csize of the result are those of
the receiver (s1, c1), not those of the merged-in table (s2, c2). -/
theorem merge_keeps_receiver_sizes (a b s1 c1 s2 c2 : Nat)
    (ha : a ≤ MAX_VALUE) (hb : b ≤ MAX_VALUE) :
    merge (singleChunk a s1 c1) (singleChunk b s2 c2)
      = singleChunk (saturate (a + b)) s1 c1 :=
  merge_singleChunk ha hb s1 c1 s2 c2

/-- Witness for C3: refcounts 1 and 4, receiver sizes (100, 200), other sizes
(300, 400). -/
theorem merge_keeps_receiver_sizes_witness :
    merge (singleChunk 1 100 200) (singleChunk 4 300 400)
      = singleChunk (saturate (1 + 4)) 100 200 :=
  merge_keeps_receiver_sizes 1 4 100 200 300 400 (by norm_num [MAX_VALUE])
    (by norm_num [MAX_VALUE])

/-! ## C4: backshift deletion wraps around the end of the bucket array -/

/-- C4.  In the seven-bucket table, inserting keys with ideal positions 6, 6, 0
puts the wrapped second key at bucket 0 and the displaced 0-ideal key at
bucket 1; deleting the first-inserted key backshifts the wrapped entry to
bucket 6 = B - 1 and the displaced entry to bucket 0, and both remaining keys
are still found by lookup. -/
theorem backshift_delete_wraps :
    wrapTable0.map (fun t => (lookup t 6, lookup t 13, lookup t 7))
        = .ok (some 6, some 0, some 1) ∧
      wrapTable1.map (fun t => (lookup t 13, lookup t 7, lookup t 6))
        = .ok (some 6, some 0, none) ∧
      wrapTable1.map (fun t => (contains t 13, contains t 7))
        = .ok (true, true) := by
  refine ⟨by decide, by decide, by decide⟩

/-! ## C5: compaction of a six-bucket table read from a stream -/

/-- C5.  Reading the six-bucket stream with buckets deleted, occupied, empty,
occupied, occupied, empty, compacting and writing produces exactly the bytes
of the three-bucket table holding the three occupied entries in their original
relative order, with header entry count 3 and bucket count 3; compacting the
table with zero occupied entries truncates it to zero buckets. -/
theorem compact_rewrites_occupied_entries :
    (readIndex compactInput).map (fun t => writeBytes (compact t)) = .ok compactExpected ∧
      (readIndex compactInput).map (fun t => ((compact t).numEntries, (compact t).buckets.length))
        = .ok (3, 3) ∧
      (readIndex emptyCompactInput).map (fun t => (compact t).buckets.length) = .ok 0 ∧
      (readIndex emptyCompactInput).map (fun t => writeBytes (compact t))
        = .ok (MAGIC ++ leBytes 4 0 ++ leBytes 4 0 ++ [32, 12]) := by
  refine ⟨by decide, by decide, by decide, by decide⟩

/-! ## C6: iteration with a marker resumes strictly after the marker -/

/-- C6.  With 100 distinct keys inserted, full iteration yields the sequence S
of the 100 entries in bucket order; iterating again with the key of S at index
49 as marker yields exactly S from index 50 on; the cursor of a fully consumed
iterator answers none on the next request; and a marker absent from the table
is a NotFound error. -/
theorem iteration_marker_resumes_after :
    (iterTable.map fun t => iterItems t) = .ok iterSeq ∧
      iterSeq[49]? = some (50, [49, 49]) ∧
      (iterTable.map fun t => iterItemsMarker t 50) = .ok (.ok (iterSeq.drop 50)) ∧
      (iterTable.map fun t => (drain t 1032 0 == iterSeq, iterNext t 101)) = .ok (true, none) ∧
      (iterTable.map fun t => iterItemsMarker t 555) = .ok (.error .notFound) := by
  refine ⟨by decide, by decide, by decide, by decide, by decide⟩

/-! ## C7: absent-key and invariant errors -/

/-- C7.  Lookup by subscript, delete, incref, decref and marker iteration each
fail with NotFound when the targeted key is absent; decref of an entry whose
refcount is 0 fails with an InvariantViolation. -/
theorem absent_key_and_invariant_errors :
    (∀ (t : HashIndex) (k : Key), lookup t k = none →
      getItem t k = .error .notFound ∧
      delItem t k = .error .notFound ∧
      incref t k = .error .notFound ∧
      decref t k = .error .notFound ∧
      iterItemsMarker t k = .error .notFound) ∧
    (∀ (t : HashIndex) (k : Key) (pos : Nat) (k0 : Key) (rest : List Nat),
      lookup t k = some pos → t.buckets[pos]? = some ⟨k0, 0 :: rest⟩ →
      decref t k = .error .invariantViolation) := by
  constructor
  · intro t k h
    refine ⟨?_, ?_, ?_, ?_, ?_⟩ <;>
      simp [getItem, delItem, incref, decref, iterItemsMarker, h]
  · intro t k pos k0 rest hl hb
    simp [decref, hl, hb, List.headD_cons]

/-- Witness for C7: a fresh empty table misses key 1; the table holding key 3
with refcount 0 rejects decref. -/
theorem absent_key_and_invariant_errors_witness :
    (getItem (mkIndex 3 3) 1 = .error .notFound ∧
      delItem (mkIndex 3 3) 1 = .error .notFound ∧
      incref (mkIndex 3 3) 1 = .error .notFound ∧
      decref (mkIndex 3 3) 1 = .error .notFound ∧
      iterItemsMarker (mkIndex 3 3) 1 = .error .notFound) ∧
    decref (singleChunk 0 0 0) 3 = .error .invariantViolation :=
  ⟨absent_key_and_invariant_errors.1 (mkIndex 3 3) 1 (by decide),
    absent_key_and_invariant_errors.2 (singleChunk 0 0 0) 3 0 3 [0, 0]
      (by decide) (by decide)⟩

/-! ## C8: range checks on direct assignment and add -/

/-- C8.  Direct assignment whose first value word exceeds MAX_VALUE fails with
a RangeError, leaving the table unchanged, so an absent key remains absent;
assignment of exactly MAX_VALUE succeeds and the key becomes present; add with
a negative refcount delta also fails with a RangeError. -/
theorem assignment_range_checks :
    (∀ (t : HashIndex) (k : Key) (v : List Nat), MAX_VALUE < v.headD EMPTY →
      setItem t k v = .error .rangeError) ∧
    (∀ (t : HashIndex) (k : Key) (d : Int) (s c : Nat), d < 0 →
      add t k d s c = .error .rangeError) ∧
    contains (mkIndex 2 MIN_BUCKETS) 1 = false ∧
    setItem (mkIndex 2 MIN_BUCKETS) 1 [MAX_VALUE + 1, 0] = .error .rangeError ∧
    (∃ t1 : HashIndex,
      setItem (mkIndex 2 MIN_BUCKETS) 1 [MAX_VALUE, 0] = .ok t1 ∧ contains t1 1 = true) := by
  refine ⟨?_, ?_, by decide, by decide, ?_⟩
  · intro t k v h
    unfold setItem
    rw [if_pos h]
  · intro t k d s c h
    unfold add
    rw [if_pos h]
  · exact ⟨rhInsert (mkIndex 2 MIN_BUCKETS) 1 [MAX_VALUE, 0], by decide, by decide⟩

/-- Witness for C8: the rejected assignment and the rejected negative add at
concrete inputs. -/
theorem assignment_range_checks_witness :
    setItem (mkIndex 3 3) 5 [MAX_VALUE + 1, 0, 0] = .error .rangeError ∧
    add (mkIndex 3 3) 5 (-1) 0 0 = .error .rangeError :=
  ⟨assignment_range_checks.1 (mkIndex 3 3) 5 [MAX_VALUE + 1, 0, 0]
      (by simp [List.headD_cons]),
    assignment_range_checks.2.1 (mkIndex 3 3) 5 (-1) 0 0 (by decide)⟩

/-! ## C10: get is the total, non-raising lookup -/

/-- C10.  For every key absent from the table, get returns the default none
while subscript lookup of the same key fails with NotFound. -/
theorem get_total_on_absent (t : HashIndex) (k : Key) (h : lookup t k = none) :
    HashIndex.get t k = none ∧ getItem t k = .error .notFound := by
  constructor <;> simp [HashIndex.get, getItem, h]

/-- Witness for C10: key 7 absent from a fresh table. -/
theorem get_total_on_absent_witness :
    HashIndex.get (mkIndex 3 5) 7 = none ∧ getItem (mkIndex 3 5) 7 = .error .notFound :=
  get_total_on_absent (mkIndex 3 5) 7 (by decide)

/-! ## C9: shrink restores the on-disk footprint -/

theorem mod_shift {k off B : Nat} (h0 : off % B = 0) (h1 : off ≤ k) (h2 : k < off + B) :
    k % B = k - off := by
  obtain ⟨q, hq⟩ : B ∣ off := Nat.dvd_of_mod_eq_zero h0
  have hk : k = (k - off) + B * q := by omega
  calc k % B = ((k - off) + B * q) % B := by rw [← hk]
    _ = (k - off) % B := Nat.add_mul_mod_self_left _ _ _
    _ = k - off := Nat.mod_eq_of_lt (by omega)

theorem ramp_length (off lo hi B : Nat) : (rampTable off lo hi B).buckets.length = B := by
  simp [rampTable]

theorem ramp_numEntries (off lo hi B : Nat) :
    (rampTable off lo hi B).numEntries = hi + 1 - lo := rfl

theorem ramp_getElem {B p : Nat} (off lo hi : Nat) (hp : p < B) :
    (rampTable off lo hi B).buckets[p]? = some (rampBucket off lo hi p) := by
  simp [rampTable, List.getElem?_map, List.getElem?_range hp]

theorem ramp_getElem_in {B p : Nat} (off lo hi : Nat) (hp : p < B) (h1 : lo ≤ p)
    (h2 : p ≤ hi) :
    (rampTable off lo hi B).buckets[p]? = some ⟨p + off, [p + off - 1, p + off - 1]⟩ := by
  rw [ramp_getElem off lo hi hp, rampBucket, if_pos ⟨h1, h2⟩]

theorem ramp_getElem_out {B p : Nat} (off lo hi : Nat) (hp : p < B)
    (h : ¬(lo ≤ p ∧ p ≤ hi)) :
    (rampTable off lo hi B).buckets[p]? = some (emptyBucket 2) := by
  rw [ramp_getElem off lo hi hp, rampBucket, if_neg h]

theorem emptyBucket_isEmpty (w : Nat) : (emptyBucket w).isEmpty = true := by
  simp [emptyBucket, Bucket.isEmpty, Bucket.firstWord]

theorem rampTable_of_empty (off lo hi B : Nat) (h : hi < lo) :
    rampTable off lo hi B
      = { valueWords := 2, buckets := emptyBuckets 2 B, numEntries := 0 } := by
  unfold rampTable
  have h1 : hi + 1 - lo = 0 := by omega
  have h2 : (List.range B).map (rampBucket off lo hi) = emptyBuckets 2 B := by
    apply List.ext_getElem?
    intro n
    rw [List.getElem?_map, emptyBuckets, List.getElem?_replicate]
    by_cases hn : n < B
    · rw [List.getElem?_range hn, if_pos hn]
      show some (rampBucket off lo hi n) = some (emptyBucket 2)
      rw [rampBucket, if_neg (show ¬(lo ≤ n ∧ n ≤ hi) by omega)]
    · rw [List.getElem?_eq_none (by simpa [List.length_range] using hn), if_neg hn]
      rfl
  rw [h1, h2]

theorem lookupFrom_miss {bs : List Bucket} {k : Key} {p fuel : Nat} {b : Bucket}
    (hfuel : fuel ≠ 0) (hb : bs[p]? = some b) (he : b.isEmpty = true) :
    lookupFrom bs k p fuel = none := by
  cases fuel with
  | zero => exact absurd rfl hfuel
  | succ n => simp [lookupFrom, hb, he]

theorem rhInsertFrom_empty {bs : List Bucket} {k : Key} {v : List Nat} {p d fuel : Nat}
    {b : Bucket} (hfuel : fuel ≠ 0) (hb : bs[p]? = some b) (he : b.isEmpty = true) :
    rhInsertFrom bs k v p d fuel = bs.set p ⟨k, v⟩ := by
  cases fuel with
  | zero => exact absurd rfl hfuel
  | succ n => simp [rhInsertFrom, hb, he]

theorem backshiftFrom_stop {w : Nat} {bs : List Bucket} {prev p fuel : Nat}
    (hfuel : fuel ≠ 0)
    (hstop : ∀ b, bs[p]? = some b →
      (b.isOccupied && bucketDistance bs.length b p != 0) = false) :
    backshiftFrom w bs prev p fuel = bs.set prev (emptyBucket w) := by
  cases fuel with
  | zero => exact absurd rfl hfuel
  | succ n =>
    rw [backshiftFrom]
    cases hb : bs[p]? with
    | none => rfl
    | some b => simp [hstop b hb]

theorem map_range_set {α : Type} {B p : Nat} (f : Nat → α) (x : α) (hp : p < B) :
    ((List.range B).map f).set p x
      = (List.range B).map fun q => if q = p then x else f q := by
  apply List.ext_getElem?
  intro n
  by_cases hn : n < B
  · rcases eq_or_ne p n with rfl | hne
    · rw [List.getElem?_set_self (by simpa [List.length_map, List.length_range] using hn),
        List.getElem?_map, List.getElem?_range hn]
      simp
    · rw [List.getElem?_set_ne hne, List.getElem?_map, List.getElem?_map,
        List.getElem?_range hn]
      simp [Ne.symm hne]
  · have hlen : ((List.range B).map f).length ≤ n := by
      simpa [List.length_map, List.length_range] using hn
    have hlen2 : ((List.range B).map fun q => if q = p then x else f q).length ≤ n := by
      simpa [List.length_map, List.length_range] using hn
    rw [List.getElem?_set_ne (by omega), List.getElem?_eq_none hlen,
      List.getElem?_eq_none hlen2]

theorem lookup_ramp_hit {off lo hi B p : Nat} (hp : p < B) (h1 : lo ≤ p) (h2 : p ≤ hi)
    (hocc : p + off ≤ MAX_VALUE) (h1o : 1 ≤ p + off)
    (hmod : hash32 (p + off) % B = p) :
    lookup (rampTable off lo hi B) (p + off) = some p := by
  have hB : B ≠ 0 := by omega
  have hb := ramp_getElem_in off lo hi hp h1 h2
  unfold lookup
  rw [ramp_length, if_neg hB, hmod]
  exact lookupFrom_hit B hB hb
    (by simpa [List.headD_cons] using ne_EMPTY_of_le (show p + off - 1 ≤ MAX_VALUE by omega))
    (by simpa [List.headD_cons] using ne_DELETED_of_le (show p + off - 1 ≤ MAX_VALUE by omega))

theorem lookup_ramp_miss {off lo hi B : Nat} (k : Key) (hB : B ≠ 0)
    (hout : ¬(lo ≤ hash32 k % B ∧ hash32 k % B ≤ hi)) :
    lookup (rampTable off lo hi B) k = none := by
  have hp : hash32 k % B < B := Nat.mod_lt _ (by omega)
  have hb := ramp_getElem_out off lo hi hp hout
  unfold lookup
  rw [ramp_length, if_neg hB]
  exact lookupFrom_miss hB hb (emptyBucket_isEmpty 2)

theorem growIfNeeded_noop {t : HashIndex}
    (h : ¬ 3 * t.buckets.length < 4 * (t.numEntries + 1)) : growIfNeeded t = t := by
  unfold growIfNeeded
  rw [if_neg h]

theorem rhInsert_ramp_step (off lo hi B : Nat)
    (_hlo : 1 ≤ lo) (hle : lo ≤ hi + 1) (hhi : hi + 1 < B)
    (hoffB : off % B = 0) (h32 : hi + 1 + off < 2 ^ 32) :
    rhInsert (rampTable off lo hi B) (hi + 1 + off) [hi + off, hi + off]
      = rampTable off lo (hi + 1) B := by
  have hB : B ≠ 0 := by omega
  have hmod : hash32 (hi + 1 + off) % B = hi + 1 := by
    unfold hash32
    rw [Nat.mod_eq_of_lt h32]
    have := mod_shift (k := hi + 1 + off) hoffB (by omega) (by omega)
    omega
  have hb := ramp_getElem_out off lo hi hhi (by omega)
  unfold rhInsert
  rw [ramp_length, hmod, rhInsertFrom_empty hB hb (emptyBucket_isEmpty 2)]
  show ({ valueWords := 2
          buckets := ((List.range B).map (rampBucket off lo hi)).set (hi + 1)
            ⟨hi + 1 + off, [hi + off, hi + off]⟩
          numEntries := hi + 1 - lo + 1 } : HashIndex) = rampTable off lo (hi + 1) B
  unfold rampTable
  have hbk : ((List.range B).map (rampBucket off lo hi)).set (hi + 1)
      ⟨hi + 1 + off, [hi + off, hi + off]⟩
      = (List.range B).map (rampBucket off lo (hi + 1)) := by
    rw [map_range_set _ _ hhi]
    apply List.map_congr_left
    intro q hq
    rcases eq_or_ne q (hi + 1) with rfl | hne
    · rw [if_pos rfl, rampBucket, if_pos (by omega)]
      have hsub : hi + 1 + off - 1 = hi + off := by omega
      rw [hsub]
    · rw [if_neg hne, rampBucket, rampBucket]
      by_cases hq2 : lo ≤ q ∧ q ≤ hi
      · rw [if_pos hq2, if_pos (by omega)]
      · rw [if_neg hq2, if_neg (by omega)]
  rw [hbk]
  have hnum : hi + 1 - lo + 1 = hi + 1 + 1 - lo := by omega
  rw [hnum]

theorem setItem_ramp_step {n B : Nat} (hB : n + 1 < B) (hgrow : 4 * (n + 1) ≤ 3 * B)
    (hmax : n + 1 ≤ MAX_VALUE) :
    setItem (rampTable 0 1 n B) (n + 1) [n + 1 - 1, n + 1 - 1]
      = .ok (rampTable 0 1 (n + 1) B) := by
  have hM32 : (MAX_VALUE : Nat) < 2 ^ 32 := by norm_num [MAX_VALUE]
  have hB0 : B ≠ 0 := by omega
  have hmod : hash32 (n + 1) % B = n + 1 := by
    unfold hash32
    rw [Nat.mod_eq_of_lt (show n + 1 < 2 ^ 32 by omega), Nat.mod_eq_of_lt hB]
  have hrange : ¬ MAX_VALUE < ([n + 1 - 1, n + 1 - 1] : List Nat).headD EMPTY := by
    simp only [List.headD_cons]
    omega
  have hmiss : lookup (rampTable 0 1 n B) (n + 1) = none :=
    lookup_ramp_miss (n + 1) hB0 (by rw [hmod]; omega)
  have hnog : growIfNeeded (rampTable 0 1 n B) = rampTable 0 1 n B := by
    apply growIfNeeded_noop
    rw [ramp_length, ramp_numEntries]
    omega
  simp only [setItem, if_neg hrange, hmiss, hnog]
  have hstep := rhInsert_ramp_step 0 1 n B
    le_rfl (by omega) hB (Nat.zero_mod B) (by omega)
  exact congrArg Except.ok hstep

theorem insertKeys_ramp {B : Nat} :
    ∀ m n, n + m < B → 4 * (n + m) ≤ 3 * B → n + m ≤ MAX_VALUE →
      insertKeys (n + 1) m (.ok (rampTable 0 1 n B)) = .ok (rampTable 0 1 (n + m) B) := by
  intro m
  induction m with
  | zero =>
    intro n _ _ _
    simp [insertKeys]
  | succ m ih =>
    intro n h1 h2 h3
    have hstep := setItem_ramp_step (n := n) (B := B) (by omega) (by omega) (by omega)
    have ih2 := ih (n + 1) (by omega) (by omega) (by omega)
    unfold insertKeys at ih2 ⊢
    rw [List.range'_succ, List.foldl_cons]
    show (List.range' (n + 1 + 1) m).foldl _
        (Except.bind (.ok (rampTable 0 1 n B)) fun u => setItem u (n + 1) [n + 1 - 1, n + 1 - 1])
      = _
    rw [show (Except.bind (.ok (rampTable 0 1 n B)) fun u =>
          setItem u (n + 1) [n + 1 - 1, n + 1 - 1])
        = setItem (rampTable 0 1 n B) (n + 1) [n + 1 - 1, n + 1 - 1] from rfl, hstep]
    rw [ih2]
    have : n + 1 + m = n + (m + 1) := by omega
    rw [this]

theorem filter_range_interval {lo hi B : Nat} (hle : lo ≤ hi + 1) (h : hi < B) :
    (List.range B).filter (fun q => decide (lo ≤ q ∧ q ≤ hi))
      = List.range' lo (hi + 1 - lo) := by
  have h1 : List.range' 0 lo ++ List.range' lo (hi + 1 - lo) = List.range' 0 (hi + 1) := by
    have := List.range'_append 0 lo (hi + 1 - lo) 1
    simp only [Nat.one_mul, Nat.zero_add] at this
    rw [this]
    congr 1
    omega
  have h2 : List.range' 0 (hi + 1) ++ List.range' (hi + 1) (B - (hi + 1))
      = List.range' 0 B := by
    have := List.range'_append 0 (hi + 1) (B - (hi + 1)) 1
    simp only [Nat.one_mul, Nat.zero_add] at this
    rw [this]
    congr 1
    omega
  rw [List.range_eq_range', ← h2, ← h1, List.filter_append, List.filter_append]
  have e1 : (List.range' 0 lo).filter (fun q => decide (lo ≤ q ∧ q ≤ hi)) = [] := by
    rw [List.filter_eq_nil_iff]
    intro a ha
    rw [List.mem_range'_1] at ha
    simp only [decide_eq_true_eq]
    omega
  have e2 : (List.range' lo (hi + 1 - lo)).filter (fun q => decide (lo ≤ q ∧ q ≤ hi))
      = List.range' lo (hi + 1 - lo) := by
    rw [List.filter_eq_self]
    intro a ha
    rw [List.mem_range'_1] at ha
    simp only [decide_eq_true_eq]
    omega
  have e3 : (List.range' (hi + 1) (B - (hi + 1))).filter
      (fun q => decide (lo ≤ q ∧ q ≤ hi)) = [] := by
    rw [List.filter_eq_nil_iff]
    intro a ha
    rw [List.mem_range'_1] at ha
    simp only [decide_eq_true_eq]
    omega
  rw [e1, e2, e3, List.append_nil, List.nil_append]

theorem ramp_filter_occupied {off lo hi B : Nat} (hle : lo ≤ hi + 1) (h : hi < B)
    (hocc : hi + off ≤ MAX_VALUE) (_h1o : 1 ≤ lo + off) :
    (rampTable off lo hi B).buckets.filter (·.isOccupied)
      = (List.range' lo (hi + 1 - lo)).map
          (fun p => (⟨p + off, [p + off - 1, p + off - 1]⟩ : Bucket)) := by
  show ((List.range B).map (rampBucket off lo hi)).filter (·.isOccupied) = _
  rw [List.filter_map]
  have hcong : (List.range B).filter ((·.isOccupied) ∘ rampBucket off lo hi)
      = (List.range B).filter (fun q => decide (lo ≤ q ∧ q ≤ hi)) := by
    apply List.filter_congr
    intro q hq
    rw [List.mem_range] at hq
    show (rampBucket off lo hi q).isOccupied = decide (lo ≤ q ∧ q ≤ hi)
    by_cases hin : lo ≤ q ∧ q ≤ hi
    · rw [rampBucket, if_pos hin, decide_eq_true hin]
      exact isOccupied_cons (show q + off - 1 ≤ MAX_VALUE by omega)
    · rw [rampBucket, if_neg hin, decide_eq_false hin]
      exact isOccupied_emptyBucket 2
  rw [hcong, filter_range_interval hle h]
  apply List.map_congr_left
  intro p hp
  rw [List.mem_range'_1] at hp
  rw [rampBucket, if_pos (by omega)]

theorem range'_map_add_right (s n a : Nat) :
    (List.range' s n).map (fun x => x + a) = List.range' (s + a) n := by
  have : (fun x : Nat => x + a) = (fun x : Nat => a + x) := by
    funext x
    omega
  rw [this, List.map_add_range', Nat.add_comm]

theorem foldl_rhInsert_ramp (off2 B2 : Nat) (hoff2 : off2 % B2 = 0) :
    ∀ m lo2 hi2, 1 ≤ lo2 → lo2 ≤ hi2 + 1 → hi2 + m + 1 ≤ B2 → hi2 + m + off2 < 2 ^ 32 →
      (List.range' (hi2 + 1 + off2) m).foldl
          (fun acc k => rhInsert acc k [k - 1, k - 1]) (rampTable off2 lo2 hi2 B2)
        = rampTable off2 lo2 (hi2 + m) B2 := by
  intro m
  induction m with
  | zero =>
    intro lo2 hi2 _ _ _ _
    simp
  | succ m ih =>
    intro lo2 hi2 hl1 hl2 hlen h32
    rw [List.range'_succ, List.foldl_cons]
    have hstep := rhInsert_ramp_step off2 lo2 hi2 B2
      hl1 hl2 (by omega) hoff2 (by omega)
    have hv : hi2 + 1 + off2 - 1 = hi2 + off2 := by omega
    rw [hv, hstep]
    have ih2 := ih lo2 (hi2 + 1) hl1 (by omega) (by omega) (by omega)
    rw [show hi2 + 1 + off2 + 1 = hi2 + 1 + 1 + off2 by omega, ih2]
    congr 1
    omega

theorem resize_ramp (off off2 lo hi B B2 : Nat)
    (hle : lo ≤ hi + 1) (hhiB : hi < B) (hoff2 : off2 % B2 = 0)
    (hlo2 : 1 ≤ lo + off - off2) (hof2 : off2 ≤ lo + off)
    (hhiB2 : hi + off - off2 + 1 ≤ B2) (hocc : hi + off ≤ MAX_VALUE)
    (h1o : 1 ≤ lo + off) :
    resize (rampTable off lo hi B) B2
      = rampTable off2 (lo + off - off2) (hi + off - off2) B2 := by
  have hM32 : (MAX_VALUE : Nat) < 2 ^ 32 := by norm_num [MAX_VALUE]
  unfold resize
  rw [ramp_filter_occupied hle hhiB hocc h1o]
  rw [show (rampTable off lo hi B).valueWords = 2 from rfl]
  rw [← rampTable_of_empty off2 (lo + off - off2) (lo + off - off2 - 1) B2 (by omega)]
  have hmap : (List.range' lo (hi + 1 - lo)).map
      (fun p => (⟨p + off, [p + off - 1, p + off - 1]⟩ : Bucket))
      = (List.range' (lo + off) (hi + 1 - lo)).map
          (fun k => (⟨k, [k - 1, k - 1]⟩ : Bucket)) := by
    rw [← range'_map_add_right lo (hi + 1 - lo) off, List.map_map]
    rfl
  rw [hmap, List.foldl_map]
  have hfold := foldl_rhInsert_ramp off2 B2 hoff2 (hi + 1 - lo)
    (lo + off - off2) (lo + off - off2 - 1) (by omega) (by omega) (by omega) (by omega)
  rw [show lo + off - off2 - 1 + 1 + off2 = lo + off by omega] at hfold
  rw [show lo + off - off2 - 1 + (hi + 1 - lo) = hi + off - off2 by omega] at hfold
  exact hfold

theorem ramp_buckets (off lo hi B : Nat) :
    (rampTable off lo hi B).buckets = (List.range B).map (rampBucket off lo hi) := rfl

theorem ramp_set_del {off lo hi B : Nat} (hp : lo < B) :
    ((List.range B).map (rampBucket off lo hi)).set lo (emptyBucket 2)
      = (List.range B).map (rampBucket off (lo + 1) hi) := by
  rw [map_range_set _ _ hp]
  apply List.map_congr_left
  intro q hq
  rcases eq_or_ne q lo with rfl | hne
  · rw [if_pos rfl, rampBucket, if_neg (by omega)]
  · rw [if_neg hne, rampBucket, rampBucket]
    by_cases h2 : lo + 1 ≤ q ∧ q ≤ hi
    · rw [if_pos (by omega), if_pos h2]
    · rw [if_neg (by omega), if_neg h2]

theorem shrinkIfNeeded_noop {t : HashIndex}
    (h : ¬(MIN_BUCKETS < t.buckets.length ∧ 4 * t.numEntries < t.buckets.length)) :
    shrinkIfNeeded t = t := by
  unfold shrinkIfNeeded
  rw [if_neg (by simpa [Bool.and_eq_true, decide_eq_true_eq] using h)]

theorem shrinkIfNeeded_fire {t : HashIndex}
    (h1 : MIN_BUCKETS < t.buckets.length) (h2 : 4 * t.numEntries < t.buckets.length)
    (h3 : pickSize ((4 * t.numEntries + 2) / 3) < t.buckets.length) :
    shrinkIfNeeded t = resize t (pickSize ((4 * t.numEntries + 2) / 3)) := by
  unfold shrinkIfNeeded
  rw [if_pos (by simp [Bool.and_eq_true, decide_eq_true_eq, h1, h2]), if_pos h3]

theorem delItem_ramp_step (off lo hi B : Nat)
    (hlo : 1 ≤ lo) (hin : lo ≤ hi) (hhi : hi + 1 < B)
    (hoffB : off % B = 0) (hocc : hi + off ≤ MAX_VALUE) :
    delItem (rampTable off lo hi B) (lo + off)
      = .ok (shrinkIfNeeded (rampTable off (lo + 1) hi B)) := by
  have hM32 : (MAX_VALUE : Nat) < 2 ^ 32 := by norm_num [MAX_VALUE]
  have hB : B ≠ 0 := by omega
  have hmodlo : hash32 (lo + off) % B = lo := by
    unfold hash32
    rw [Nat.mod_eq_of_lt (show lo + off < 2 ^ 32 by omega)]
    have := mod_shift (k := lo + off) hoffB (by omega) (by omega)
    omega
  have hhit : lookup (rampTable off lo hi B) (lo + off) = some lo :=
    lookup_ramp_hit (by omega) le_rfl hin (by omega) (by omega) hmodlo
  have hmodp : (lo + 1) % B = lo + 1 := Nat.mod_eq_of_lt (by omega)
  have hstop : ∀ b, (rampTable off lo hi B).buckets[lo + 1]? = some b →
      (b.isOccupied &&
        bucketDistance (rampTable off lo hi B).buckets.length b (lo + 1) != 0) = false := by
    intro b hb
    by_cases hcase : lo + 1 ≤ hi
    · rw [ramp_getElem_in off lo hi (by omega) (by omega) hcase] at hb
      injection hb with hb
      subst hb
      have hdist : bucketDistance (rampTable off lo hi B).buckets.length
          ⟨lo + 1 + off, [lo + 1 + off - 1, lo + 1 + off - 1]⟩ (lo + 1) = 0 := by
        rw [ramp_length]
        unfold bucketDistance
        show probeDistance B (hash32 (lo + 1 + off) % B) (lo + 1) = 0
        have hm : hash32 (lo + 1 + off) % B = lo + 1 := by
          unfold hash32
          rw [Nat.mod_eq_of_lt (show lo + 1 + off < 2 ^ 32 by omega)]
          have := mod_shift (k := lo + 1 + off) hoffB (by omega) (by omega)
          omega
        rw [hm]
        unfold probeDistance
        rw [show lo + 1 + B - (lo + 1) = B by omega, Nat.mod_self]
      rw [hdist]
      simp
    · rw [ramp_getElem_out off lo hi (by omega) (by omega)] at hb
      injection hb with hb
      subst hb
      simp [isOccupied_emptyBucket]
  simp only [delItem, hhit]
  rw [ramp_length, hmodp]
  rw [show (rampTable off lo hi B).valueWords = 2 from rfl]
  rw [backshiftFrom_stop hB (by rw [ramp_length] at hstop ⊢; exact hstop)]
  have hbk : (rampTable off lo hi B).buckets.set lo (emptyBucket 2)
      = (List.range B).map (rampBucket off (lo + 1) hi) := by
    rw [ramp_buckets, ramp_set_del (by omega)]
  rw [hbk]
  have hnum : (rampTable off lo hi B).numEntries - 1 = hi + 1 - (lo + 1) := by
    rw [ramp_numEntries]
    omega
  rw [hnum]
  rfl

theorem deleteKeys_ramp (off B : Nat) (hoffB : off % B = 0) :
    ∀ m lo hi, 1 ≤ lo → lo + m ≤ hi + 1 → hi + 1 < B → hi + off ≤ MAX_VALUE →
      (MIN_BUCKETS < B → B ≤ 4 * (hi + 1 - (lo + m))) →
      deleteKeys (lo + off) m (.ok (rampTable off lo hi B))
        = .ok (rampTable off (lo + m) hi B) := by
  intro m
  induction m with
  | zero =>
    intro lo hi _ _ _ _ _
    simp [deleteKeys]
  | succ m ih =>
    intro lo hi h1 h2 h3 h4 h5
    have hstep := delItem_ramp_step off lo hi B
      h1 (by omega) h3 hoffB h4
    have hnoop : shrinkIfNeeded (rampTable off (lo + 1) hi B)
        = rampTable off (lo + 1) hi B := by
      apply shrinkIfNeeded_noop
      rw [ramp_length, ramp_numEntries]
      intro hcon
      have := h5 hcon.1
      omega
    have ih2 := ih (lo + 1) hi (by omega) (by omega) h3 h4
      (by intro hc; have := h5 hc; omega)
    unfold deleteKeys at ih2 ⊢
    rw [List.range'_succ, List.foldl_cons]
    rw [show (Except.bind (.ok (rampTable off lo hi B)) fun u => delItem u (lo + off))
        = delItem (rampTable off lo hi B) (lo + off) from rfl, hstep, hnoop]
    rw [show lo + off + 1 = lo + 1 + off by omega, ih2]
    rw [show lo + 1 + m = lo + (m + 1) by omega]

theorem growIfNeeded_fire {t : HashIndex}
    (h : 3 * t.buckets.length < 4 * (t.numEntries + 1)) :
    growIfNeeded t = resize t (pickSize ((4 * (t.numEntries + 1) + 2) / 3)) := by
  unfold growIfNeeded
  rw [if_pos h]

theorem insertKeys_append (a m n : Nat) (t : Except HIError HashIndex) :
    insertKeys a (m + n) t = insertKeys (a + m) n (insertKeys a m t) := by
  unfold insertKeys
  rw [← List.foldl_append]
  congr 1
  have h := List.range'_append a m n 1
  simp only [Nat.one_mul] at h
  rw [h]
  congr 1
  omega

theorem deleteKeys_append (a m n : Nat) (t : Except HIError HashIndex) :
    deleteKeys a (m + n) t = deleteKeys (a + m) n (deleteKeys a m t) := by
  unfold deleteKeys
  rw [← List.foldl_append]
  congr 1
  have h := List.range'_append a m n 1
  simp only [Nat.one_mul] at h
  rw [h]
  congr 1
  omega

theorem insertKeys_one (a : Nat) (t : HashIndex) :
    insertKeys a 1 (.ok t) = setItem t a [a - 1, a - 1] := rfl

theorem deleteKeys_one (a : Nat) (t : HashIndex) :
    deleteKeys a 1 (.ok t) = delItem t a := rfl

theorem setItem_grow1 :
    setItem (rampTable 0 1 773 1031) 774 [774 - 1, 774 - 1]
      = .ok (rampTable 0 1 774 2053) := by
  have hrange : ¬ MAX_VALUE < ([774 - 1, 774 - 1] : List Nat).headD EMPTY := by
    simp only [List.headD_cons]
    norm_num [MAX_VALUE]
  have hmiss : lookup (rampTable 0 1 773 1031) 774 = none := by
    apply lookup_ramp_miss 774 (by norm_num)
    rw [show hash32 774 % 1031 = 774 from rfl]
    omega
  have hfire : growIfNeeded (rampTable 0 1 773 1031)
      = resize (rampTable 0 1 773 1031) 2053 := by
    rw [growIfNeeded_fire (by rw [ramp_length, ramp_numEntries]; norm_num), ramp_numEntries]
    rw [(by decide : pickSize ((4 * (773 + 1 - 1 + 1) + 2) / 3) = 2053)]
  have hres : resize (rampTable 0 1 773 1031) 2053 = rampTable 0 1 773 2053 := by
    have := resize_ramp 0 0 1 773 1031 2053 (by norm_num) (by norm_num) (by norm_num)
      (by norm_num) (by norm_num) (by norm_num) (by norm_num [MAX_VALUE]) (by norm_num)
    simpa using this
  simp only [setItem, if_neg hrange, hmiss, hfire, hres]
  have hstep := rhInsert_ramp_step 0 1 773 2053 le_rfl (by norm_num) (by norm_num)
    (by norm_num) (by norm_num)
  have hv : (774 : Nat) - 1 = 773 + 0 := by norm_num
  rw [hv]
  exact congrArg Except.ok (by simpa using hstep)

theorem setItem_grow2 :
    setItem (rampTable 0 1 1539 2053) 1540 [1540 - 1, 1540 - 1]
      = .ok (rampTable 0 1 1540 4099) := by
  have hrange : ¬ MAX_VALUE < ([1540 - 1, 1540 - 1] : List Nat).headD EMPTY := by
    simp only [List.headD_cons]
    norm_num [MAX_VALUE]
  have hmiss : lookup (rampTable 0 1 1539 2053) 1540 = none := by
    apply lookup_ramp_miss 1540 (by norm_num)
    rw [show hash32 1540 % 2053 = 1540 from rfl]
    omega
  have hfire : growIfNeeded (rampTable 0 1 1539 2053)
      = resize (rampTable 0 1 1539 2053) 4099 := by
    rw [growIfNeeded_fire (by rw [ramp_length, ramp_numEntries]; norm_num), ramp_numEntries]
    rw [(by decide : pickSize ((4 * (1539 + 1 - 1 + 1) + 2) / 3) = 4099)]
  have hres : resize (rampTable 0 1 1539 2053) 4099 = rampTable 0 1 1539 4099 := by
    have := resize_ramp 0 0 1 1539 2053 4099 (by norm_num) (by norm_num) (by norm_num)
      (by norm_num) (by norm_num) (by norm_num) (by norm_num [MAX_VALUE]) (by norm_num)
    simpa using this
  simp only [setItem, if_neg hrange, hmiss, hfire, hres]
  have hstep := rhInsert_ramp_step 0 1 1539 4099 le_rfl (by norm_num) (by norm_num)
    (by norm_num) (by norm_num)
  have hv : (1540 : Nat) - 1 = 1539 + 0 := by norm_num
  rw [hv]
  exact congrArg Except.ok (by simpa using hstep)

theorem delItem_shrink1 :
    delItem (rampTable 0 976 2000 4099) 976 = .ok (rampTable 0 977 2000 2053) := by
  have hstep := delItem_ramp_step 0 976 2000 4099 (by norm_num) (by norm_num) (by norm_num)
    (by norm_num) (by norm_num [MAX_VALUE])
  have hfire : shrinkIfNeeded (rampTable 0 977 2000 4099)
      = resize (rampTable 0 977 2000 4099) 2053 := by
    rw [shrinkIfNeeded_fire (by rw [ramp_length]; norm_num [MIN_BUCKETS])
      (by rw [ramp_length, ramp_numEntries]; norm_num)
      (by rw [ramp_length, ramp_numEntries]; decide), ramp_numEntries]
    rw [(by decide : pickSize ((4 * (2000 + 1 - 977) + 2) / 3) = 2053)]
  have hres : resize (rampTable 0 977 2000 4099) 2053 = rampTable 0 977 2000 2053 := by
    have := resize_ramp 0 0 977 2000 4099 2053 (by norm_num) (by norm_num) (by norm_num)
      (by norm_num) (by norm_num) (by norm_num) (by norm_num [MAX_VALUE]) (by norm_num)
    simpa using this
  rw [show (976 : Nat) = 976 + 0 from rfl, hstep, hfire, hres]

theorem delItem_shrink2 :
    delItem (rampTable 0 1487 2000 2053) 1487 = .ok (rampTable 1031 457 969 1031) := by
  have hstep := delItem_ramp_step 0 1487 2000 2053 (by norm_num) (by norm_num) (by norm_num)
    (by norm_num) (by norm_num [MAX_VALUE])
  have hfire : shrinkIfNeeded (rampTable 0 1488 2000 2053)
      = resize (rampTable 0 1488 2000 2053) 1031 := by
    rw [shrinkIfNeeded_fire (by rw [ramp_length]; norm_num [MIN_BUCKETS])
      (by rw [ramp_length, ramp_numEntries]; norm_num)
      (by rw [ramp_length, ramp_numEntries]; decide), ramp_numEntries]
    rw [(by decide : pickSize ((4 * (2000 + 1 - 1488) + 2) / 3) = 1031)]
  have hres : resize (rampTable 0 1488 2000 2053) 1031 = rampTable 1031 457 969 1031 := by
    have := resize_ramp 0 1031 1488 2000 2053 1031 (by norm_num) (by norm_num) (by norm_num)
      (by norm_num) (by norm_num) (by norm_num) (by norm_num [MAX_VALUE]) (by norm_num)
    simpa using this
  rw [show (1487 : Nat) = 1487 + 0 from rfl, hstep, hfire, hres]

theorem scenarioInsert_eq : scenarioInsert = .ok (rampTable 0 1 2000 4099) := by
  have hstart : (.ok (mkIndex 2 MIN_BUCKETS) : Except HIError HashIndex)
      = .ok (rampTable 0 1 0 1031) := by
    rw [rampTable_of_empty 0 1 0 1031 (by norm_num)]
    rfl
  have hA : insertKeys 1 773 (.ok (rampTable 0 1 0 1031))
      = .ok (rampTable 0 1 773 1031) := by
    have := insertKeys_ramp (B := 1031) 773 0 (by norm_num) (by norm_num)
      (by norm_num [MAX_VALUE])
    simpa using this
  have hB : insertKeys 775 765 (.ok (rampTable 0 1 774 2053))
      = .ok (rampTable 0 1 1539 2053) := by
    have := insertKeys_ramp (B := 2053) 765 774 (by norm_num) (by norm_num)
      (by norm_num [MAX_VALUE])
    simpa using this
  have hC : insertKeys 1541 460 (.ok (rampTable 0 1 1540 4099))
      = .ok (rampTable 0 1 2000 4099) := by
    have := insertKeys_ramp (B := 4099) 460 1540 (by norm_num) (by norm_num)
      (by norm_num [MAX_VALUE])
    simpa using this
  unfold scenarioInsert
  rw [hstart]
  rw [show (2000 : Nat) = 773 + (1 + (765 + (1 + 460))) from rfl,
    insertKeys_append 1 773 (1 + (765 + (1 + 460))), hA,
    show (1 : Nat) + 773 = 774 from rfl,
    insertKeys_append 774 1 (765 + (1 + 460)), insertKeys_one, setItem_grow1,
    show (774 : Nat) + 1 = 775 from rfl,
    insertKeys_append 775 765 (1 + 460), hB,
    show (775 : Nat) + 765 = 1540 from rfl,
    insertKeys_append 1540 1 460, insertKeys_one, setItem_grow2,
    show (1540 : Nat) + 1 = 1541 from rfl, hC]

theorem scenarioFinal_eq : scenarioFinal = .ok (rampTable 1031 970 969 1031) := by
  have hD : deleteKeys 1 975 (.ok (rampTable 0 1 2000 4099))
      = .ok (rampTable 0 976 2000 4099) := by
    have := deleteKeys_ramp 0 4099 (by norm_num) 975 1 2000 (by norm_num) (by norm_num)
      (by norm_num) (by norm_num [MAX_VALUE]) (by intro _; norm_num)
    simpa using this
  have hE : deleteKeys 977 510 (.ok (rampTable 0 977 2000 2053))
      = .ok (rampTable 0 1487 2000 2053) := by
    have := deleteKeys_ramp 0 2053 (by norm_num) 510 977 2000 (by norm_num) (by norm_num)
      (by norm_num) (by norm_num [MAX_VALUE]) (by intro _; norm_num)
    simpa using this
  have hF : deleteKeys 1488 513 (.ok (rampTable 1031 457 969 1031))
      = .ok (rampTable 1031 970 969 1031) := by
    have := deleteKeys_ramp 1031 1031 (by norm_num) 513 457 969 (by norm_num) (by norm_num)
      (by norm_num) (by norm_num [MAX_VALUE]) (by intro h; exact absurd h (by norm_num [MIN_BUCKETS]))
    simpa using this
  unfold scenarioFinal
  rw [scenarioInsert_eq]
  rw [show (2000 : Nat) = 975 + (1 + (510 + (1 + 513))) from rfl,
    deleteKeys_append 1 975 (1 + (510 + (1 + 513))), hD,
    show (1 : Nat) + 975 = 976 from rfl,
    deleteKeys_append 976 1 (510 + (1 + 513)), deleteKeys_one, delItem_shrink1,
    show (976 : Nat) + 1 = 977 from rfl,
    deleteKeys_append 977 510 (1 + 513), hE,
    show (977 : Nat) + 510 = 1487 from rfl,
    deleteKeys_append 1487 1 513, deleteKeys_one, delItem_shrink2,
    show (1487 : Nat) + 1 = 1488 from rfl, hF]

/-- C9.  Shrink restores the on-disk footprint: a freshly created empty NSIndex
writes 41258 bytes; after inserting 2000 distinct keys the written size grows
to 163978 bytes, strictly larger; after deleting all 2000 keys the written
size is again exactly the original 41258 bytes. -/
theorem shrink_restores_disk_size :
    sizeOnDisk (mkIndex 2 MIN_BUCKETS) = 41258 ∧
      scenarioInsert.map sizeOnDisk = .ok 163978 ∧
      41258 < 163978 ∧
      scenarioFinal.map sizeOnDisk = .ok 41258 := by
  refine ⟨by decide, ?_, by norm_num, ?_⟩
  · rw [scenarioInsert_eq]
    show Except.ok (sizeOnDisk (rampTable 0 1 2000 4099)) = Except.ok 163978
    unfold sizeOnDisk
    rw [ramp_length, show (rampTable 0 1 2000 4099).valueWords = 2 from rfl]
  · rw [scenarioFinal_eq]
    show Except.ok (sizeOnDisk (rampTable 1031 970 969 1031)) = Except.ok 41258
    unfold sizeOnDisk
    rw [ramp_length, show (rampTable 1031 970 969 1031).valueWords = 2 from rfl]

end Borg
